import Mathlib

/-!
Shallow embedding of the faucet-attenomics access-code service.

The access-code subsystem (src/index.js) keeps two Firestore collections:
`accessCodes` (documents keyed by a store-assigned id) and `users` (keyed by
the external user id).  We model a collection as an association list from
document id to document record, and each endpoint as a pure function from a
request plus the current store to a response plus the updated store.  The
Firestore transaction in /api/validate-code is sequentialized: in this
single-request model the in-transaction re-read returns exactly the document
the preceding query matched.  `serverTimestamp()` and `new Date()` are both
modelled by an explicit `now : Int` parameter (epoch milliseconds);
`FieldValue.increment(1)` becomes `+ 1`.

JavaScript truthiness of optional fields is modelled explicitly: a missing
numeric field or the number 0 is falsy (`natTruthy`), a missing string or the
empty string is falsy (`strTruthy`), while a stored Firestore Timestamp
object is always truthy (`Option.isSome` on the modelled timestamp).
-/

namespace Attenomics

/-- JS truthiness of an optional number: `null`/absent and `0` are falsy. -/
def natTruthy : Option Nat → Bool
  | none => false
  | some n => n != 0

/-- JS truthiness of an optional string: `null`/absent and `""` are falsy. -/
def strTruthy : Option String → Bool
  | none => false
  | some s => s != ""

/-- `code.toUpperCase()`: character-wise ASCII uppercasing. -/
def jsToUpper (s : String) : String :=
  String.mk (s.data.map Char.toUpper)

/-- One document of the `accessCodes` collection (src/index.js, fields
written by /api/generate-code, /api/validate-code and /api/revoke-code).
Timestamps are epoch milliseconds. -/
structure CodeDoc where
  code : String
  status : String
  usedCount : Nat
  maxUses : Option Nat
  expiresAt : Option Int
  usedBy : Option String
  createdAt : Option Int
  lastUsedAt : Option Int
  revokedAt : Option Int
  note : String
deriving DecidableEq, Repr

/-- One document of the `users` collection. -/
structure UserDoc where
  status : Option String
  walletAddress : Option String
  authorizedAt : Option Int
  lastCode : Option String
  lastLogin : Option Int
  loginCount : Nat
  updatedAt : Option Int
deriving DecidableEq, Repr

/-- A freshly created user document: every field absent. -/
def emptyUser : UserDoc :=
  { status := none, walletAddress := none, authorizedAt := none,
    lastCode := none, lastLogin := none, loginCount := 0, updatedAt := none }

/-- The two Firestore collections, as association lists docId ↦ document. -/
structure Store where
  codes : List (String × CodeDoc)
  users : List (String × UserDoc)
deriving DecidableEq, Repr

/-- Fetch the document stored under key `k` in a collection. -/
def findVal {α : Type} (l : List (String × α)) (k : String) : Option α :=
  (l.find? (fun p => p.1 == k)).map Prod.snd

/-- Rewrite the document stored under key `k` in place. -/
def updVal {α : Type} (l : List (String × α)) (k : String) (f : α → α) :
    List (String × α) :=
  l.map (fun p => if p.1 == k then (p.1, f p.2) else p)

/-- `codesCollection.doc(docId).get()`. -/
def lookupCode (st : Store) (docId : String) : Option CodeDoc :=
  findVal st.codes docId

/-- `codesCollection.doc(docId).update(f)`. -/
def updateCode (st : Store) (docId : String) (f : CodeDoc → CodeDoc) : Store :=
  { st with codes := updVal st.codes docId f }

/-- `usersCollection.doc(uid).get()`. -/
def lookupUser (st : Store) (uid : String) : Option UserDoc :=
  findVal st.users uid

/-- `usersCollection.doc(uid).set(fields, { merge: true })`: the fields that
`f` assigns overwrite the stored ones, unmentioned fields are preserved; if
the document does not exist it is created holding just the assigned fields. -/
def mergeUser (st : Store) (uid : String) (f : UserDoc → UserDoc) : Store :=
  if (findVal st.users uid).isSome then
    { st with users := updVal st.users uid f }
  else
    { st with users := st.users ++ [(uid, f emptyUser)] }

/-- The query `where("code","==",t).where("status","==","active")`. -/
def queryActive (st : Store) (t : String) : List (String × CodeDoc) :=
  st.codes.filter (fun p => p.2.code == t && p.2.status == "active")

/-- JSON response shape of /api/validate-code together with the HTTP status. -/
structure VResult where
  httpStatus : Nat
  valid : Bool
  message : Option String
  error : Option String
deriving DecidableEq, Repr

/-- The body of the `db.runTransaction` callback in /api/validate-code
(src/index.js lines 123-167), acting on the matched document `codeData`
stored under `docId`. -/
def runTransaction (now : Int) (st : Store) (docId : String) (codeData : CodeDoc)
    (code userId : String) : VResult × Store :=
  if codeData.expiresAt.isSome ∧ codeData.expiresAt.getD 0 < now then
    (⟨200, false, none, some "Code expired"⟩,
      updateCode st docId (fun c => { c with status := "expired" }))
  else if natTruthy codeData.maxUses ∧ codeData.maxUses.getD 0 ≤ codeData.usedCount then
    (⟨200, false, none, some "Code usage limit reached"⟩,
      updateCode st docId (fun c => { c with status := "used" }))
  else if strTruthy codeData.usedBy then
    if codeData.usedBy == some userId then
      (⟨200, true, some "Code already used by this user", none⟩, st)
    else
      (⟨200, false, none, some "This code has already been used by another user"⟩, st)
  else
    let st1 := updateCode st docId (fun c =>
      { c with usedCount := c.usedCount + 1, lastUsedAt := some now, usedBy := some userId })
    let st2 := mergeUser st1 userId (fun u =>
      { u with status := some "active", authorizedAt := some now, lastCode := some code })
    (⟨200, true, none, none⟩, st2)

/-- POST /api/validate-code (src/index.js lines 93-178).  A missing request
field is modelled as the empty string, matching JS falsiness of `undefined`. -/
def validateCode (now : Int) (st : Store) (code userId : String) : VResult × Store :=
  if code = "" ∨ code.length ≠ 6 then
    (⟨400, false, none, some "Invalid code format"⟩, st)
  else if userId = "" then
    (⟨400, false, none, some "userId is required"⟩, st)
  else
    match (queryActive st (jsToUpper code)).head? with
    | none => (⟨200, false, none, some "Invalid code"⟩, st)
    | some (docId, codeData) => runTransaction now st docId codeData code userId

/-- JSON response shape of /api/revoke-code together with the HTTP status. -/
structure RResult where
  httpStatus : Nat
  success : Bool
  error : Option String
deriving DecidableEq, Repr

/-- POST /api/revoke-code (src/index.js lines 354-374): update the document
to `status := "revoked"`, stamping `revokedAt`.  A Firestore `update` on a
nonexistent document rejects, which the handler's catch turns into a 500. -/
def revokeCode (now : Int) (st : Store) (codeId : String) : RResult × Store :=
  if codeId = "" then
    (⟨400, false, some "codeId is required"⟩, st)
  else if (lookupCode st codeId).isSome then
    (⟨200, true, none⟩,
      updateCode st codeId (fun c => { c with status := "revoked", revokedAt := some now }))
  else
    (⟨500, false, some "Failed to revoke code"⟩, st)

/-- The generator alphabet of /api/generate-code: 32 characters, the
similar-looking I, O, 0, 1 removed. -/
def chars : String := "ABCDEFGHJKLMNPQRSTUVWXYZ23456789"

/-- One call of `generateRandomCode` (src/index.js lines 189-196).  Each
`Math.floor(Math.random() * chars.length)` draw yields a value in `Fin 32`;
the stream `draw` supplies them, the `k`-th generator call consuming draws
`6*k .. 6*k+5`. -/
def generateRandomCode (draw : Nat → Fin 32) (base : Nat) : String :=
  String.mk ((List.range 6).map (fun i => chars.data.getD (draw (base + i)).val 'A'))

/-- The code texts currently stored, any status: the uniqueness query
`where("code","==",code)` has no status filter. -/
def storedCodes (st : Store) : List String :=
  st.codes.map (fun p => p.2.code)

/-- The collision-retry loop of /api/generate-code (src/index.js lines
198-204), with explicit fuel standing for termination of the unbounded
`while`: retry while the candidate code text is already stored. -/
def generateUniqueCode (stored : List String) (draw : Nat → Fin 32) :
    Nat → Nat → Option String
  | 0, _ => none
  | fuel + 1, attempt =>
    if stored.contains (generateRandomCode draw (6 * attempt)) then
      generateUniqueCode stored draw fuel (attempt + 1)
    else some (generateRandomCode draw (6 * attempt))

/-- The `expiresAt` computation of /api/generate-code (src/index.js lines
207-211): `expiresInDays ? Timestamp.fromDate(new Date(Date.now() +
expiresInDays * 24*60*60*1000)) : null`.  Note `expiresInDays` is tested for
JS truthiness, so the number 0 takes the `null` branch. -/
def computeExpiresAt (now : Int) (expiresInDays : Option Nat) : Option Int :=
  if natTruthy expiresInDays then
    some (now + (expiresInDays.getD 0 : Nat) * 86400000)
  else
    none

/-- The document inserted by /api/generate-code (src/index.js lines 214-222)
for a freshly generated code text. -/
def newCodeDoc (now : Int) (c : String) (maxUses : Option Nat)
    (expiresInDays : Option Nat) (note : String) : CodeDoc :=
  { code := c, status := "active", createdAt := some now,
    expiresAt := computeExpiresAt now expiresInDays,
    maxUses := if natTruthy maxUses then maxUses else none,
    usedCount := 0, usedBy := none, lastUsedAt := none, revokedAt := none,
    note := note }

/-- JSON response shape of /api/generate-code together with the HTTP status. -/
structure GResult where
  httpStatus : Nat
  id : Option String
  code : Option String
  expiresAt : Option Int
  maxUses : Option Nat
  error : Option String
deriving DecidableEq, Repr

/-- POST /api/generate-code (src/index.js lines 184-236), behind the admin
check.  The store-assigned id of `codesCollection.add` is the parameter
`freshId`; the randomness stream and the retry fuel parametrize the
collision loop, `none` standing for a run of the unbounded `while` that
never found a fresh code within `fuel` attempts. -/
def generateCode (now : Int) (st : Store) (freshId : String) (draw : Nat → Fin 32)
    (fuel : Nat) (maxUses expiresInDays : Option Nat) (note : String) :
    Option (GResult × Store) :=
  (generateUniqueCode (storedCodes st) draw fuel 0).map (fun c =>
    (⟨200, some freshId, some c, computeExpiresAt now expiresInDays, maxUses, none⟩,
     { st with codes := st.codes ++ [(freshId, newCodeDoc now c maxUses expiresInDays note)] }))

/-- JSON response shape of /api/check-access together with the HTTP status. -/
structure CAResult where
  httpStatus : Nat
  isAuthorized : Option Bool
  error : Option String
deriving DecidableEq, Repr

/-- POST /api/check-access (src/index.js lines 58-87).  `userId` is a string
(missing modelled as empty); `walletAddress` keeps the supplied/absent
distinction, with `some ""` falsy exactly as in JS. -/
def checkAccess (st : Store) (userId : String) (walletAddress : Option String) :
    CAResult :=
  if userId = "" then
    ⟨400, none, some "userId is required"⟩
  else
    match lookupUser st userId with
    | none => ⟨200, some false, none⟩
    | some userData =>
      ⟨200, some (userData.status == some "active" &&
          (!(strTruthy walletAddress) || userData.walletAddress == walletAddress)), none⟩

/-- Configuration of one chain (src/config/chain.js): balances and amounts in
wei, as natural numbers. -/
structure ChainCfg where
  minBalance : Nat
  faucetAmount : Nat
  explorerUrl : String
deriving DecidableEq, Repr

/-- The external collaborators of src/api/faucet.js.  Each fallible call
(`getBalance`, `sendTransaction` followed by `wait`) is modelled as an
`Except`, whose error the surrounding `try`/`catch` converts into a result
object.  `sendAndWait` returns the mined receipt hash. -/
structure FaucetEnv where
  chains : List (String × ChainCfg)
  isAddress : String → Bool
  getBalance : String → String → Except String Nat
  sendAndWait : String → String → Nat → Except String String
  formatEther : Nat → String

/-- JSON result object of `dripFaucet`. -/
structure FaucetResult where
  success : Bool
  chain : String
  txHash : Option String
  amount : Option String
  explorerUrl : Option String
  message : Option String
  currentBalance : Option String
  error : Option String
deriving DecidableEq, Repr

/-- The object the `catch` block of `dripFaucet` returns for a thrown error. -/
def faucetCatch (chain msg : String) : FaucetResult :=
  { success := false, chain := chain, txHash := none, amount := none,
    explorerUrl := none, message := none, currentBalance := none, error := some msg }

/-- The body of `dripFaucet` once the chain configuration has been resolved
(src/api/faucet.js lines 30-66).  The second component of the pair
instruments whether `sendTransaction` was invoked; it is not part of the JS
return value. -/
def dripWithCfg (env : FaucetEnv) (address chain : String) (cfg : ChainCfg) :
    FaucetResult × Bool :=
  if !env.isAddress address then
    (faucetCatch chain "Invalid Ethereum address", false)
  else
    match env.getBalance chain address with
    | .error e => (faucetCatch chain e, false)
    | .ok balance =>
      if balance < cfg.minBalance then
        match env.sendAndWait chain address cfg.faucetAmount with
        | .error e => (faucetCatch chain e, true)
        | .ok hash =>
          ({ success := true, chain := chain, txHash := some hash,
             amount := some (env.formatEther cfg.faucetAmount),
             explorerUrl := some (cfg.explorerUrl ++ "/tx/" ++ hash),
             message := none, currentBalance := none, error := none }, true)
      else
        ({ success := false, chain := chain, txHash := none, amount := none,
           explorerUrl := none,
           message := some "Address already has sufficient balance",
           currentBalance := some (env.formatEther balance), error := none }, false)

/-- `dripFaucet` (src/api/faucet.js lines 23-74). -/
def dripFaucet (env : FaucetEnv) (address chain : String) : FaucetResult × Bool :=
  match (env.chains.find? (fun p => p.1 == chain)).map Prod.snd with
  | none => (faucetCatch chain ("Unsupported chain: " ++ chain), false)
  | some cfg => dripWithCfg env address chain cfg

/-! ### Helper lemmas about the association-list store -/

theorem findVal_updVal_self {α : Type} (l : List (String × α)) (k : String) (f : α → α) :
    findVal (updVal l k f) k = (findVal l k).map f := by
  induction l with
  | nil => rfl
  | cons p t ih =>
    by_cases h : p.1 = k
    · rw [findVal, updVal, List.map_cons, if_pos (by simpa using h),
        List.find?_cons_of_pos _ (by simpa using h), findVal,
        List.find?_cons_of_pos _ (by simpa using h)]
      simp
    · rw [findVal, updVal, List.map_cons, if_neg (by simpa using h),
        List.find?_cons_of_neg _ (by simpa using h), findVal,
        List.find?_cons_of_neg _ (by simpa using h)]
      exact ih

theorem findVal_updVal_ne {α : Type} (l : List (String × α)) (k k' : String)
    (f : α → α) (h : k' ≠ k) :
    findVal (updVal l k f) k' = findVal l k' := by
  induction l with
  | nil => rfl
  | cons p t ih =>
    by_cases hp : p.1 = k
    · rw [findVal, updVal, List.map_cons, if_pos (by simpa using hp),
        List.find?_cons_of_neg _ (by simp [hp]; exact fun hc => h (hc ▸ rfl)),
        findVal, List.find?_cons_of_neg _ (by simp [hp]; exact fun hc => h (hc ▸ rfl))]
      exact ih
    · by_cases hp' : p.1 = k'
      · rw [findVal, updVal, List.map_cons, if_neg (by simpa using hp),
          List.find?_cons_of_pos _ (by simpa using hp'), findVal,
          List.find?_cons_of_pos _ (by simpa using hp')]
      · rw [findVal, updVal, List.map_cons, if_neg (by simpa using hp),
          List.find?_cons_of_neg _ (by simpa using hp'), findVal,
          List.find?_cons_of_neg _ (by simpa using hp')]
        exact ih

theorem findVal_append_of_isSome {α : Type} (l l₂ : List (String × α)) (k : String)
    (h : (findVal l k).isSome) :
    findVal (l ++ l₂) k = findVal l k := by
  rw [findVal, List.find?_append, findVal]
  cases hf : List.find? (fun p => p.1 == k) l with
  | none => rw [findVal, hf] at h; simp at h
  | some v => simp

theorem findVal_eq_of_mem_nodup {α : Type} {l : List (String × α)} {k : String} {v : α}
    (hmem : (k, v) ∈ l) (hnd : (l.map Prod.fst).Nodup) :
    findVal l k = some v := by
  induction l with
  | nil => simp at hmem
  | cons p t ih =>
    simp only [List.map_cons, List.nodup_cons] at hnd
    rcases List.mem_cons.mp hmem with h | h
    · rw [findVal, List.find?_cons_of_pos _ (by simp [← h])]
      simp [← h]
    · have hk : ¬ p.1 = k := by
        intro hp
        exact hnd.1 (hp ▸ (List.mem_map.mpr ⟨(k, v), h, rfl⟩))
      rw [findVal, List.find?_cons_of_neg _ (by simpa using hk)]
      exact ih h hnd.2

theorem findVal_append_of_none {α : Type} (l l₂ : List (String × α)) (k : String)
    (h : findVal l k = none) :
    findVal (l ++ l₂) k = findVal l₂ k := by
  rw [findVal, List.find?_append]
  rw [findVal] at h
  cases hf : List.find? (fun p => p.1 == k) l with
  | none => simp [findVal]
  | some v => rw [hf] at h; simp at h

/-! ### Helper lemmas about the endpoint bodies -/

/-- With well-formed inputs and a matched active document, /api/validate-code
is the transaction body on that document. -/
theorem validateCode_eq_runTransaction (now : Int) (st : Store)
    (code userId docId : String) (d : CodeDoc)
    (hcode : code.length = 6) (huid : userId ≠ "")
    (hq : (queryActive st (jsToUpper code)).head? = some (docId, d)) :
    validateCode now st code userId = runTransaction now st docId d code userId := by
  have hne : code ≠ "" := by
    intro hc
    rw [hc] at hcode
    simp at hcode
  unfold validateCode
  rw [if_neg (by push_neg; exact ⟨hne, hcode⟩), if_neg huid, hq]

/-- Both `updateCode` and `mergeUser` leave the other collection alone. -/
theorem lookupUser_updateCode (st : Store) (docId uid : String) (f : CodeDoc → CodeDoc) :
    lookupUser (updateCode st docId f) uid = lookupUser st uid := rfl

theorem lookupCode_mergeUser (st : Store) (uid docId : String) (f : UserDoc → UserDoc) :
    lookupCode (mergeUser st uid f) docId = lookupCode st docId := by
  unfold mergeUser
  split <;> rfl

/-- The merged user document: assigned fields overwrite, the rest comes from
the previous document, or from the empty one when none existed. -/
theorem lookupUser_mergeUser_self (st : Store) (uid : String) (f : UserDoc → UserDoc) :
    lookupUser (mergeUser st uid f) uid =
      some (f ((lookupUser st uid).getD emptyUser)) := by
  cases hv : findVal st.users uid with
  | some u =>
    have hs : (findVal st.users uid).isSome := by rw [hv]; rfl
    have hm : mergeUser st uid f = { st with users := updVal st.users uid f } := by
      unfold mergeUser; rw [if_pos hs]
    rw [lookupUser, hm]
    show findVal (updVal st.users uid f) uid = _
    rw [findVal_updVal_self, hv, lookupUser, hv]
    rfl
  | none =>
    have hs : ¬ (findVal st.users uid).isSome = true := by rw [hv]; simp
    have hm : mergeUser st uid f = { st with users := st.users ++ [(uid, f emptyUser)] } := by
      unfold mergeUser; rw [if_neg hs]
    rw [lookupUser, hm]
    show findVal (st.users ++ [(uid, f emptyUser)]) uid = _
    rw [findVal_append_of_none _ _ _ hv, lookupUser, hv]
    rw [findVal, List.find?_cons_of_pos _ (by simp)]
    rfl

/-- A document matched by the active-code query is an entry of the store. -/
theorem mem_of_queryActive_head (st : Store) (t docId : String) (d : CodeDoc)
    (hq : (queryActive st t).head? = some (docId, d)) :
    (docId, d) ∈ st.codes ∧ d.code = t ∧ d.status = "active" := by
  have hmem : (docId, d) ∈ queryActive st t :=
    List.mem_of_mem_head? (by simp [hq])
  have h2 := List.of_mem_filter hmem
  have h3 : d.code = t ∧ d.status = "active" := by simpa using h2
  exact ⟨List.mem_of_mem_filter hmem, h3.1, h3.2⟩

/-- A validate call answers `valid:true` only on the matched document's
reuse-by-same-user branch or its first-use branch. -/
theorem validateCode_valid_usedBy (now : Int) (st : Store) (code userId : String)
    (h : (validateCode now st code userId).1.valid = true) :
    ∃ docId d, (queryActive st (jsToUpper code)).head? = some (docId, d) ∧
      (d.usedBy = some userId ∨ strTruthy d.usedBy = false) := by
  unfold validateCode at h
  split_ifs at h with h1 h2
  cases hq : (queryActive st (jsToUpper code)).head? with
  | none => rw [hq] at h; simp at h
  | some pr =>
    obtain ⟨docId, d⟩ := pr
    rw [hq] at h
    have h' : (runTransaction now st docId d code userId).1.valid = true := h
    refine ⟨docId, d, rfl, ?_⟩
    unfold runTransaction at h'
    split_ifs at h' with e1 e2 e3 e4
    · exact Or.inl (by simpa using e4)
    · exact Or.inr (by simpa using e3)

theorem findVal_isSome_of_mem {α : Type} {l : List (String × α)} {k : String} {v : α}
    (hmem : (k, v) ∈ l) : (findVal l k).isSome := by
  induction l with
  | nil => simp at hmem
  | cons p t ih =>
    rcases List.mem_cons.mp hmem with h | h
    · rw [findVal, List.find?_cons_of_pos _ (by simp [← h])]
      rfl
    · by_cases hp : p.1 = k
      · rw [findVal, List.find?_cons_of_pos _ (by simpa using hp)]
        rfl
      · rw [findVal, List.find?_cons_of_neg _ (by simpa using hp)]
        exact ih h

theorem lookupCode_updateCode_self (st : Store) (k : String) (f : CodeDoc → CodeDoc) :
    lookupCode (updateCode st k f) k = (lookupCode st k).map f :=
  findVal_updVal_self _ _ _

/-- Updating some document with a `usedBy`-preserving rewrite keeps the
`usedBy` of every stored document. -/
theorem lookupCode_update_preserve (st : Store) (docId docId0 : String) (d : CodeDoc)
    (f : CodeDoc → CodeDoc) (hf : ∀ c, (f c).usedBy = c.usedBy)
    (hd : lookupCode st docId = some d) :
    ∃ d', lookupCode (updateCode st docId0 f) docId = some d' ∧ d'.usedBy = d.usedBy := by
  by_cases h : docId = docId0
  · subst h
    refine ⟨f d, ?_, hf d⟩
    show findVal (updVal st.codes docId f) docId = _
    rw [findVal_updVal_self, show findVal st.codes docId = some d from hd]
    rfl
  · refine ⟨d, ?_, rfl⟩
    show findVal (updVal st.codes docId0 f) docId = _
    rw [findVal_updVal_ne _ _ _ _ h]
    exact hd

/-! ### Concrete stores used to instantiate the theorems -/

/-- An active code with `maxUses = 1` already redeemed once by user "u1". -/
def limitOneDoc : CodeDoc :=
  { code := "AB234C", status := "active", usedCount := 1, maxUses := some 1,
    expiresAt := none, usedBy := some "u1", createdAt := some 0,
    lastUsedAt := some 1, revokedAt := none, note := "" }

def limitOneStore : Store := { codes := [("doc1", limitOneDoc)], users := [] }

/-- Like `limitOneDoc` but with two uses still available. -/
def reuseDoc : CodeDoc := { limitOneDoc with maxUses := some 3 }

def reuseStore : Store := { codes := [("doc1", reuseDoc)], users := [] }

/-- A fresh, never-redeemed active code. -/
def freshDoc : CodeDoc :=
  { code := "AB234C", status := "active", usedCount := 0, maxUses := some 1,
    expiresAt := none, usedBy := none, createdAt := some 0, lastUsedAt := none,
    revokedAt := none, note := "" }

def freshStore : Store := { codes := [("doc1", freshDoc)], users := [] }

/-- An active code whose `expiresAt` (50) lies in the past of `now = 100`. -/
def expiredDoc : CodeDoc := { freshDoc with expiresAt := some 50, usedCount := 7 }

def expiredStore : Store := { codes := [("doc1", expiredDoc)], users := [] }

/-- A user authorized earlier (at time 5) through some other code. -/
def priorUser : UserDoc :=
  { emptyUser with
    status := some "active"
    authorizedAt := some 5
    lastCode := some "XYZ789" }

def priorAuthStore : Store :=
  { codes := [("doc1", freshDoc)], users := [("u1", priorUser)] }

/-! ### Claim theorems -/

/-- C6: a validate request whose code is not exactly 6 characters long, or
whose userId is missing/empty, is rejected with HTTP 400, `valid:false` and
an error; the store is unchanged and the response does not depend on the
store contents at all (the format check precedes any store access). -/
theorem validate_input_check (now : Int) (st : Store) (code userId : String)
    (h : code.length ≠ 6 ∨ userId = "") :
    (validateCode now st code userId).1.httpStatus = 400 ∧
    (validateCode now st code userId).1.valid = false ∧
    (validateCode now st code userId).1.error.isSome = true ∧
    (validateCode now st code userId).2 = st ∧
    ∀ st2 : Store, (validateCode now st2 code userId).1 =
      (validateCode now st code userId).1 := by
  rcases h with h | h
  · simp [validateCode, h]
  · by_cases h6 : code = "" ∨ code.length ≠ 6
    · simp [validateCode, h6]
    · simp [validateCode, h6, h]

/-- Witness for `validate_input_check`: code "AB12" has length 4. -/
theorem validate_input_check_witness :
    (validateCode 0 { codes := [], users := [] } "AB12" "u1").1.httpStatus = 400 :=
  (validate_input_check 0 { codes := [], users := [] } "AB12" "u1"
    (Or.inl (by decide))).1

/-- C4: a validate call on an active code whose `expiresAt` is set and in
the past is rejected with `{valid:false, error:"Code expired"}` regardless
of its `usedCount`, `maxUses` and `usedBy` fields, and the stored status of
the code becomes "expired". -/
theorem validate_expired (now t : Int) (st : Store) (code userId docId : String)
    (d : CodeDoc)
    (hcode : code.length = 6) (huid : userId ≠ "")
    (hq : (queryActive st (jsToUpper code)).head? = some (docId, d))
    (hexp : d.expiresAt = some t) (ht : t < now) :
    validateCode now st code userId =
      (⟨200, false, none, some "Code expired"⟩,
        updateCode st docId (fun c => { c with status := "expired" })) ∧
    ∃ d0, lookupCode st docId = some d0 ∧
      lookupCode (validateCode now st code userId).2 docId =
        some { d0 with status := "expired" } := by
  have heq := validateCode_eq_runTransaction now st code userId docId d hcode huid hq
  have hrun : runTransaction now st docId d code userId =
      (⟨200, false, none, some "Code expired"⟩,
        updateCode st docId (fun c => { c with status := "expired" })) := by
    unfold runTransaction
    rw [if_pos ⟨by rw [hexp]; rfl, by rw [hexp]; simpa using ht⟩]
  have hfull := heq.trans hrun
  refine ⟨hfull, ?_⟩
  have hmem := (mem_of_queryActive_head st _ docId d hq).1
  obtain ⟨d0, hd0⟩ := Option.isSome_iff_exists.mp (findVal_isSome_of_mem hmem)
  refine ⟨d0, hd0, ?_⟩
  rw [hfull]
  show lookupCode (updateCode st docId (fun c => { c with status := "expired" })) docId =
    some { d0 with status := "expired" }
  rw [lookupCode_updateCode_self, show lookupCode st docId = some d0 from hd0]
  rfl

/-- Witness for `validate_expired`: code "AB234C" expired at 50, now 100. -/
theorem validate_expired_witness :
    (validateCode 100 expiredStore "AB234C" "u1").1.error = some "Code expired" := by
  have h := validate_expired 100 50 expiredStore "AB234C" "u1" "doc1" expiredDoc
    (by decide) (by decide) (by decide) (by decide) (by decide)
  rw [h.1]

/-- C1 counterexample: user "u1" has already redeemed "AB234C"
(`usedBy = "u1"`, `usedCount = 1`) and the code has `maxUses = 1`.  The
second validate call by the same user does NOT succeed: the usage-limit
check runs before the same-user reuse check, so the call returns
`{valid:false, error:"Code usage limit reached"}` and mutates the document
(status becomes "used") — refuting "succeeds ... regardless of the code's
maxUses value". -/
theorem validate_reuse_blocked_by_limit_cex :
    lookupCode limitOneStore "doc1" = some limitOneDoc ∧
    limitOneDoc.usedBy = some "u1" ∧
    validateCode 10 limitOneStore "AB234C" "u1" =
      (⟨200, false, none, some "Code usage limit reached"⟩,
       { codes := [("doc1", { limitOneDoc with status := "used" })], users := [] }) := by
  decide

/-- C1 (amended): if the matched code has not expired and its usage limit
has not been reached, a validate call by the very user recorded in `usedBy`
succeeds with `{valid:true, message:"Code already used by this user"}` and
performs no mutation at all (in particular `usedCount` is unchanged).  When
`maxUses` is set, nonzero and already reached, the same call is instead
rejected with "Code usage limit reached" (see the counterexample). -/
theorem validate_same_user_reuse (now : Int) (st : Store)
    (code userId docId : String) (d : CodeDoc)
    (hcode : code.length = 6) (huid : userId ≠ "")
    (hq : (queryActive st (jsToUpper code)).head? = some (docId, d))
    (hexp : ¬(d.expiresAt.isSome = true ∧ d.expiresAt.getD 0 < now))
    (hlim : ¬(natTruthy d.maxUses = true ∧ d.maxUses.getD 0 ≤ d.usedCount))
    (hub : d.usedBy = some userId) :
    validateCode now st code userId =
      (⟨200, true, some "Code already used by this user", none⟩, st) := by
  rw [validateCode_eq_runTransaction now st code userId docId d hcode huid hq]
  unfold runTransaction
  rw [if_neg hexp, if_neg hlim,
    if_pos (show strTruthy d.usedBy = true by rw [hub]; simpa [strTruthy] using huid),
    if_pos (show (d.usedBy == some userId) = true by rw [hub]; simp)]

/-- Witness for `validate_same_user_reuse`: "u1" revalidates "AB234C" on a
code with `maxUses = 3`, `usedCount = 1`, `usedBy = "u1"`. -/
theorem validate_same_user_reuse_witness :
    validateCode 10 reuseStore "AB234C" "u1" =
      (⟨200, true, some "Code already used by this user", none⟩, reuseStore) :=
  validate_same_user_reuse 10 reuseStore "AB234C" "u1" "doc1" reuseDoc
    (by decide) (by decide) (by decide) (by decide) (by decide) (by decide)

/-- C3 counterexample: user "u1" already carries `authorizedAt = 5` from an
earlier authorization.  A first-use redemption at time 99 overwrites
`authorizedAt` to 99: Firestore's `set(..., {merge:true})` overwrites every
supplied field, so there is no "set only if absent" semantics. -/
theorem validate_first_use_overwrites_authorizedAt_cex :
    (lookupUser priorAuthStore "u1").map UserDoc.authorizedAt = some (some 5) ∧
    (validateCode 99 priorAuthStore "AB234C" "u1").1 = ⟨200, true, none, none⟩ ∧
    (lookupUser (validateCode 99 priorAuthStore "AB234C" "u1").2 "u1").map
      UserDoc.authorizedAt = some (some 99) ∧
    (some (99 : Int)) ≠ some 5 := by
  decide

/-- C3 (amended): a first successful redemption (active match, not expired,
under the limit, `usedBy` unset) returns `{valid:true}` with no message,
increments `usedCount` by exactly 1, stamps `lastUsedAt`, sets `usedBy` to
the calling user, and merge-upserts the User document with `status=active`
and `lastCode` equal to the submitted code — but `authorizedAt` is
overwritten with the current timestamp on every first use, whether or not it
was previously present. -/
theorem validate_first_use (now : Int) (st : Store)
    (code userId docId : String) (d : CodeDoc)
    (hcode : code.length = 6) (huid : userId ≠ "")
    (hnd : (st.codes.map Prod.fst).Nodup)
    (hq : (queryActive st (jsToUpper code)).head? = some (docId, d))
    (hexp : ¬(d.expiresAt.isSome = true ∧ d.expiresAt.getD 0 < now))
    (hlim : ¬(natTruthy d.maxUses = true ∧ d.maxUses.getD 0 ≤ d.usedCount))
    (hub : strTruthy d.usedBy = false) :
    (validateCode now st code userId).1 = ⟨200, true, none, none⟩ ∧
    lookupCode (validateCode now st code userId).2 docId =
      some { d with usedCount := d.usedCount + 1, lastUsedAt := some now,
                    usedBy := some userId } ∧
    lookupUser (validateCode now st code userId).2 userId =
      some { (lookupUser st userId).getD emptyUser with
             status := some "active", authorizedAt := some now,
             lastCode := some code } := by
  have heq := validateCode_eq_runTransaction now st code userId docId d hcode huid hq
  have hrun : runTransaction now st docId d code userId =
      (⟨200, true, none, none⟩,
        mergeUser (updateCode st docId (fun c =>
            { c with usedCount := c.usedCount + 1, lastUsedAt := some now,
                     usedBy := some userId }))
          userId (fun u =>
            { u with status := some "active", authorizedAt := some now,
                     lastCode := some code })) := by
    unfold runTransaction
    rw [if_neg hexp, if_neg hlim, if_neg (by simp [hub])]
  have hfull := heq.trans hrun
  rw [hfull]
  refine ⟨rfl, ?_, ?_⟩
  · show lookupCode (mergeUser (updateCode st docId _) userId _) docId = _
    rw [lookupCode_mergeUser, lookupCode_updateCode_self]
    have hd : lookupCode st docId = some d :=
      findVal_eq_of_mem_nodup (mem_of_queryActive_head st _ docId d hq).1 hnd
    rw [hd]
    rfl
  · show lookupUser (mergeUser (updateCode st docId _) userId _) userId = _
    rw [lookupUser_mergeUser_self, lookupUser_updateCode]

/-- Witness for `validate_first_use`: first redemption of "AB234C" by "u1"
over `priorAuthStore`. -/
theorem validate_first_use_witness :
    (validateCode 99 priorAuthStore "AB234C" "u1").1 = ⟨200, true, none, none⟩ :=
  (validate_first_use 99 priorAuthStore "AB234C" "u1" "doc1" freshDoc
    (by decide) (by decide) (by decide) (by decide) (by decide) (by decide)
    (by decide)).1

/-- C2: once a stored code document has `usedBy = u` (a nonempty user id),
(1) a validate call that resolves to this document by any user other than
`u` never returns `valid:true`; and `usedBy` survives unchanged under every
subsequent mutating operation: (2) any validate call, (3) any revoke call,
(4) any generate call. -/
theorem usedBy_sticky (now now2 : Int) (st : Store) (docId u : String) (d : CodeDoc)
    (hu : u ≠ "") (hd : lookupCode st docId = some d) (hub : d.usedBy = some u)
    (hnd : (st.codes.map Prod.fst).Nodup) :
    (∀ code userId, (queryActive st (jsToUpper code)).head? = some (docId, d) →
        userId ≠ u → (validateCode now st code userId).1.valid = false) ∧
    (∀ code userId, ∃ d',
        lookupCode (validateCode now st code userId).2 docId = some d' ∧
        d'.usedBy = some u) ∧
    (∀ codeId, ∃ d',
        lookupCode (revokeCode now2 st codeId).2 docId = some d' ∧
        d'.usedBy = some u) ∧
    (∀ freshId draw fuel mu days note r st',
        generateCode now st freshId draw fuel mu days note = some (r, st') →
        ∃ d', lookupCode st' docId = some d' ∧ d'.usedBy = some u) := by
  refine ⟨?_, ?_, ?_, ?_⟩
  · -- (1) no other user ever gets valid:true on this document
    intro code userId hq huser
    cases hb : (validateCode now st code userId).1.valid with
    | false => rfl
    | true =>
      obtain ⟨docId', d', hq', hdisj⟩ := validateCode_valid_usedBy now st code userId hb
      rw [hq] at hq'
      have hdd : d = d' := congrArg (fun p => p.2) (Option.some.inj hq')
      rcases hdisj with hcase | hcase
      · rw [← hdd, hub] at hcase
        exact absurd (Option.some.inj hcase).symm huser
      · rw [← hdd, hub] at hcase
        simp [strTruthy, hu] at hcase
  · -- (2) usedBy preserved by any validate call
    intro code userId
    unfold validateCode
    split_ifs with h1 h2
    · exact ⟨d, hd, hub⟩
    · exact ⟨d, hd, hub⟩
    cases hq : (queryActive st (jsToUpper code)).head? with
    | none => exact ⟨d, hd, hub⟩
    | some pr =>
      obtain ⟨docId0, d0⟩ := pr
      show ∃ d', lookupCode (runTransaction now st docId0 d0 code userId).2 docId = some d' ∧
        d'.usedBy = some u
      unfold runTransaction
      split_ifs with e1 e2 e3 e4
      · show ∃ d', lookupCode
            (updateCode st docId0 (fun c => { c with status := "expired" })) docId =
            some d' ∧ d'.usedBy = some u
        obtain ⟨d', hl, he⟩ := lookupCode_update_preserve st docId docId0 d
          (fun c => { c with status := "expired" }) (fun c => rfl) hd
        exact ⟨d', hl, by rw [he, hub]⟩
      · show ∃ d', lookupCode
            (updateCode st docId0 (fun c => { c with status := "used" })) docId =
            some d' ∧ d'.usedBy = some u
        obtain ⟨d', hl, he⟩ := lookupCode_update_preserve st docId docId0 d
          (fun c => { c with status := "used" }) (fun c => rfl) hd
        exact ⟨d', hl, by rw [he, hub]⟩
      · exact ⟨d, hd, hub⟩
      · exact ⟨d, hd, hub⟩
      · -- first-use branch: the matched doc has falsy usedBy, so it is not ours
        have hne0 : docId ≠ docId0 := by
          intro heq
          have hmem := (mem_of_queryActive_head st _ docId0 d0 hq).1
          have : lookupCode st docId0 = some d0 := findVal_eq_of_mem_nodup hmem hnd
          rw [← heq, hd] at this
          have hdd : d = d0 := Option.some.inj this
          rw [← hdd, hub] at e3
          simp [strTruthy, hu] at e3
        refine ⟨d, ?_, hub⟩
        show lookupCode (mergeUser (updateCode st docId0 (fun c =>
            { c with usedCount := c.usedCount + 1, lastUsedAt := some now,
                     usedBy := some userId })) userId (fun u0 =>
            { u0 with status := some "active", authorizedAt := some now,
                      lastCode := some code })) docId = some d
        rw [lookupCode_mergeUser]
        show findVal (updVal st.codes docId0 (fun c =>
            { c with usedCount := c.usedCount + 1, lastUsedAt := some now,
                     usedBy := some userId })) docId = some d
        rw [findVal_updVal_ne _ _ _ _ hne0]
        exact hd
  · -- (3) usedBy preserved by any revoke call
    intro codeId
    unfold revokeCode
    split_ifs with r1 r2
    · exact ⟨d, hd, hub⟩
    · show ∃ d', lookupCode (updateCode st codeId (fun c =>
          { c with status := "revoked", revokedAt := some now2 })) docId =
          some d' ∧ d'.usedBy = some u
      obtain ⟨d', hl, he⟩ := lookupCode_update_preserve st docId codeId d
        (fun c => { c with status := "revoked", revokedAt := some now2 })
        (fun c => rfl) hd
      exact ⟨d', hl, by rw [he, hub]⟩
    · exact ⟨d, hd, hub⟩
  · -- (4) usedBy preserved by any generate call
    intro freshId draw fuel mu days note r st' hgen
    unfold generateCode at hgen
    cases hu0 : generateUniqueCode (storedCodes st) draw fuel 0 with
    | none => rw [hu0] at hgen; simp at hgen
    | some c =>
      rw [hu0] at hgen
      have hst' : st' =
          { st with codes := st.codes ++ [(freshId, newCodeDoc now c mu days note)] } :=
        (congrArg (fun p => p.2) (Option.some.inj hgen)).symm
      rw [hst']
      refine ⟨d, ?_, hub⟩
      show findVal (st.codes ++ [(freshId, newCodeDoc now c mu days note)]) docId = some d
      rw [findVal_append_of_isSome _ _ _ (by rw [show findVal st.codes docId = some d from hd]; rfl)]
      exact hd

/-- Witness for `usedBy_sticky`: user "u2" cannot redeem the code owned by
"u1", over `reuseStore`. -/
theorem usedBy_sticky_witness :
    (validateCode 10 reuseStore "AB234C" "u2").1.valid = false :=
  (usedBy_sticky 10 0 reuseStore "doc1" "u1" reuseDoc (by decide) (by decide)
    (by decide) (by decide)).1 "AB234C" "u2" (by decide) (by decide)

/-- C5: revoking a stored code sets its status to "revoked" and stamps
`revokedAt`; when the revoked document was the only one bearing its code
text, a subsequent validate call on that text returns
`{valid:false, error:"Invalid code"}` and changes nothing; more generally
any validate call on a code text with no active document does so. -/
theorem revoke_then_validate (now now2 : Int) (st : Store)
    (codeId code userId : String) (d : CodeDoc)
    (hcid : codeId ≠ "") (hd : lookupCode st codeId = some d)
    (hcode : code.length = 6) (huid : userId ≠ "")
    (huniq : ∀ p ∈ st.codes, p.2.code = jsToUpper code → p.1 = codeId) :
    (revokeCode now st codeId).1 = ⟨200, true, none⟩ ∧
    lookupCode (revokeCode now st codeId).2 codeId =
      some { d with status := "revoked", revokedAt := some now } ∧
    validateCode now2 (revokeCode now st codeId).2 code userId =
      (⟨200, false, none, some "Invalid code"⟩, (revokeCode now st codeId).2) ∧
    (∀ st0 : Store, queryActive st0 (jsToUpper code) = [] →
      validateCode now2 st0 code userId =
        (⟨200, false, none, some "Invalid code"⟩, st0)) := by
  have hne : code ≠ "" := by
    intro hc
    rw [hc] at hcode
    simp at hcode
  have hsome : (lookupCode st codeId).isSome := by rw [hd]; rfl
  have hrev : revokeCode now st codeId =
      (⟨200, true, none⟩, updateCode st codeId (fun c =>
        { c with status := "revoked", revokedAt := some now })) := by
    unfold revokeCode
    rw [if_neg hcid, if_pos hsome]
  have hval : ∀ st0 : Store, queryActive st0 (jsToUpper code) = [] →
      validateCode now2 st0 code userId =
        (⟨200, false, none, some "Invalid code"⟩, st0) := by
    intro st0 hq0
    unfold validateCode
    rw [if_neg (by push_neg; exact ⟨hne, hcode⟩), if_neg huid, hq0]
    rfl
  have hqnil : queryActive (updateCode st codeId (fun c =>
      { c with status := "revoked", revokedAt := some now })) (jsToUpper code) = [] := by
    apply List.filter_eq_nil_iff.mpr
    intro q hqmem
    obtain ⟨p, hp, hfq⟩ := List.mem_map.mp hqmem
    by_cases hpk : p.1 = codeId
    · rw [if_pos (by simpa using hpk)] at hfq
      rw [← hfq]
      simp
    · rw [if_neg (by simpa using hpk)] at hfq
      rw [← hfq]
      simp only [Bool.and_eq_true, beq_iff_eq, not_and]
      intro hc _
      exact hpk (huniq p hp hc)
  refine ⟨by rw [hrev], ?_, ?_, hval⟩
  · rw [hrev]
    show lookupCode (updateCode st codeId (fun c =>
      { c with status := "revoked", revokedAt := some now })) codeId = _
    rw [lookupCode_updateCode_self, hd]
    rfl
  · rw [hrev]
    exact hval _ hqnil

/-- Witness for `revoke_then_validate`: revoke "doc1" in `freshStore`, then
user "u2" fails to validate "AB234C". -/
theorem revoke_then_validate_witness :
    validateCode 6 (revokeCode 5 freshStore "doc1").2 "AB234C" "u2" =
      (⟨200, false, none, some "Invalid code"⟩, (revokeCode 5 freshStore "doc1").2) :=
  (revoke_then_validate 5 6 freshStore "doc1" "AB234C" "u2" freshDoc
    (by decide) (by decide) (by decide) (by decide) (by decide)).2.2.1

theorem generateRandomCode_length (draw : Nat → Fin 32) (base : Nat) :
    (generateRandomCode draw base).length = 6 := by
  show ((List.range 6).map _).length = 6
  rw [List.length_map, List.length_range]

theorem generateRandomCode_alphabet (draw : Nat → Fin 32) (base : Nat) :
    ∀ ch ∈ (generateRandomCode draw base).data, ch ∈ chars.data := by
  intro ch hch
  have hch' : ch ∈ (List.range 6).map
      (fun i => chars.data.getD (draw (base + i)).val 'A') := hch
  obtain ⟨i, _, heq⟩ := List.mem_map.mp hch'
  have h32 : (draw (base + i)).val < chars.data.length := by
    rw [show chars.data.length = 32 from by decide]
    exact (draw (base + i)).isLt
  rw [← heq, List.getD_eq_getElem chars.data 'A' h32]
  exact List.getElem_mem h32

theorem generateUniqueCode_spec (stored : List String) (draw : Nat → Fin 32) :
    ∀ fuel attempt c, generateUniqueCode stored draw fuel attempt = some c →
      c ∉ stored ∧ ∃ base, c = generateRandomCode draw base := by
  intro fuel
  induction fuel with
  | zero => intro attempt c h; simp [generateUniqueCode] at h
  | succ n ih =>
    intro attempt c h
    unfold generateUniqueCode at h
    by_cases hc : stored.contains (generateRandomCode draw (6 * attempt))
    · rw [if_pos hc] at h
      exact ih (attempt + 1) c h
    · rw [if_neg hc] at h
      have hcc : generateRandomCode draw (6 * attempt) = c := Option.some.inj h
      rw [← hcc]
      exact ⟨by simpa using hc, 6 * attempt, rfl⟩

/-- C7 counterexample: `expiresInDays` supplied as the number 0 is JS-falsy,
so the stored `expiresAt` is null (never expires) instead of
`now + 0 * 24h = now`. -/
theorem generate_expiresAt_zero_cex :
    (newCodeDoc 1000 "AB234C" none (some 0) "").expiresAt = none ∧
    (none : Option Int) ≠ some (1000 + (0 : Nat) * 86400000) := by
  decide

/-- C7 (amended): every code produced by the generator is exactly 6
characters long, drawn from the fixed 32-character alphabet, and not equal
to any already-stored code text (the loop retries on collision); when a
nonzero `expiresInDays` is supplied the stored `expiresAt` is
`now + expiresInDays * 24h`, and when it is absent — or supplied as the
JS-falsy 0 — `expiresAt` is null (never expires). -/
theorem generate_code_spec (now : Int) (st : Store) (freshId : String)
    (draw : Nat → Fin 32) (fuel : Nat) (mu days : Option Nat) (note : String)
    (r : GResult) (st' : Store)
    (h : generateCode now st freshId draw fuel mu days note = some (r, st')) :
    chars.data.length = 32 ∧
    ∃ c, r.code = some c ∧ c.length = 6 ∧ (∀ ch ∈ c.data, ch ∈ chars.data) ∧
      c ∉ storedCodes st ∧
      st' = { st with codes := st.codes ++ [(freshId, newCodeDoc now c mu days note)] } ∧
      r.expiresAt = computeExpiresAt now days ∧
      (newCodeDoc now c mu days note).expiresAt = computeExpiresAt now days ∧
      (∀ dd : Nat, days = some dd → dd ≠ 0 →
        computeExpiresAt now days = some (now + dd * 86400000)) ∧
      ((days = none ∨ days = some 0) → computeExpiresAt now days = none) := by
  refine ⟨by decide, ?_⟩
  unfold generateCode at h
  cases hg : generateUniqueCode (storedCodes st) draw fuel 0 with
  | none => rw [hg] at h; simp at h
  | some c =>
    rw [hg] at h
    have hpair := Option.some.inj h
    have hr : r = ⟨200, some freshId, some c, computeExpiresAt now days, mu, none⟩ :=
      (congrArg (fun p => p.1) hpair).symm
    have hst : st' =
        { st with codes := st.codes ++ [(freshId, newCodeDoc now c mu days note)] } :=
      (congrArg (fun p => p.2) hpair).symm
    obtain ⟨hnotin, base, hbase⟩ :=
      generateUniqueCode_spec (storedCodes st) draw fuel 0 c hg
    refine ⟨c, by rw [hr], ?_, ?_, hnotin, hst, by rw [hr], rfl, ?_, ?_⟩
    · rw [hbase]
      exact generateRandomCode_length draw base
    · rw [hbase]
      exact generateRandomCode_alphabet draw base
    · intro dd hdd hdd0
      rw [hdd]
      unfold computeExpiresAt
      rw [if_pos (by simp [natTruthy, hdd0])]
      rfl
    · intro hdd
      unfold computeExpiresAt
      rcases hdd with h0 | h0 <;> rw [h0, if_neg (by simp [natTruthy])]

/-- Witness for `generate_code_spec`: the all-zero draw stream over an
empty store yields the code "AAAAAA". -/
theorem generate_code_spec_witness :
    ("AAAAAA" : String).length = 6 ∧
    "AAAAAA" ∉ storedCodes { codes := [], users := [] } := by
  have h := generate_code_spec 0 { codes := [], users := [] } "id1"
    (fun _ => (0 : Fin 32)) 1 none none ""
    ⟨200, some "id1", some "AAAAAA", none, none, none⟩
    { codes := [("id1", newCodeDoc 0 "AAAAAA" none none "")], users := [] }
    (by decide)
  obtain ⟨-, c, hc, hlen, -, hnotin, -, -, -, -, -⟩ := h
  have hcc : c = "AAAAAA" := (Option.some.inj hc).symm
  rw [← hcc]
  exact ⟨hlen, hnotin⟩

/-- Concrete faucet environment: "0xOK" holds 70 wei on "sepolia", whose
minimum balance is 50 wei. -/
def cfgSepolia : ChainCfg :=
  { minBalance := 50, faucetAmount := 100, explorerUrl := "https://sepolia.etherscan.io" }

def envFunded : FaucetEnv :=
  { chains := [("sepolia", cfgSepolia)]
    isAddress := fun a => a == "0xOK"
    getBalance := fun _ _ => Except.ok 70
    sendAndWait := fun _ _ _ => Except.ok "0xHASH"
    formatEther := fun n => toString n }

/-- C8: when the requested address already holds at least the configured
`minBalance` on the resolved chain, `dripFaucet` performs no transfer and
returns a failure-shaped result reporting the current balance; and a
transfer is ever attempted only when the read balance is strictly below the
chain's `minBalance`. -/
theorem faucet_no_transfer_when_funded (env : FaucetEnv) (address chain : String)
    (cfg : ChainCfg) (bal : Nat)
    (hc : (env.chains.find? (fun p => p.1 == chain)).map Prod.snd = some cfg)
    (ha : env.isAddress address = true)
    (hb : env.getBalance chain address = Except.ok bal)
    (hmin : cfg.minBalance ≤ bal) :
    dripFaucet env address chain =
      ({ success := false, chain := chain, txHash := none, amount := none,
         explorerUrl := none, message := some "Address already has sufficient balance",
         currentBalance := some (env.formatEther bal), error := none }, false) ∧
    (∀ a c, (dripFaucet env a c).2 = true →
      ∃ cfg2 bal2, (env.chains.find? (fun p => p.1 == c)).map Prod.snd = some cfg2 ∧
        env.getBalance c a = Except.ok bal2 ∧ bal2 < cfg2.minBalance) := by
  constructor
  · have hnl : ¬ bal < cfg.minBalance := Nat.not_lt.mpr hmin
    simp [dripFaucet, hc, dripWithCfg, ha, hb, hnl]
  · intro a c htr
    unfold dripFaucet at htr
    cases hfind : (env.chains.find? (fun p => p.1 == c)).map Prod.snd with
    | none => rw [hfind] at htr; simp at htr
    | some cfg2 =>
      rw [hfind] at htr
      have htr' : (dripWithCfg env a c cfg2).2 = true := htr
      unfold dripWithCfg at htr'
      split_ifs at htr' with g1
      cases hbal : env.getBalance c a with
      | error e => simp only [hbal] at htr'; simp at htr'
      | ok b =>
        simp only [hbal] at htr'
        by_cases hlt : b < cfg2.minBalance
        · exact ⟨cfg2, b, rfl, rfl, hlt⟩
        · rw [if_neg hlt] at htr'
          simp at htr'

/-- Witness for `faucet_no_transfer_when_funded` over `envFunded`. -/
theorem faucet_no_transfer_when_funded_witness :
    (dripFaucet envFunded "0xOK" "sepolia").2 = false := by
  have h := faucet_no_transfer_when_funded envFunded "0xOK" "sepolia" cfgSepolia 70
    rfl rfl rfl (by decide)
  rw [h.1]

theorem dripWithCfg_structured (env : FaucetEnv) (address chain : String)
    (cfg : ChainCfg) :
    (dripWithCfg env address chain cfg).1.success = true ∨
    ((dripWithCfg env address chain cfg).1.success = false ∧
      ((dripWithCfg env address chain cfg).1.error.isSome = true ∨
       (dripWithCfg env address chain cfg).1.message.isSome = true)) := by
  unfold dripWithCfg
  split_ifs with g1
  · simp [faucetCatch]
  · cases hbal : env.getBalance chain address with
    | error e => simp [faucetCatch]
    | ok b =>
      by_cases g2 : b < cfg.minBalance
      · cases hsend : env.sendAndWait chain address cfg.faucetAmount with
        | error e => simp [g2, faucetCatch]
        | ok hsh => simp [g2]
      · simp [g2, faucetCatch]

/-- C9: `dripFaucet` is total over its inputs and always returns a
structured result: every outcome either has `success = true`, or has
`success = false` together with a populated `error` or `message` field —
no failure of the chain lookup, address check, balance read or transfer
escapes as an exception. -/
theorem dripFaucet_structured (env : FaucetEnv) (address chain : String) :
    (dripFaucet env address chain).1.success = true ∨
    ((dripFaucet env address chain).1.success = false ∧
      ((dripFaucet env address chain).1.error.isSome = true ∨
       (dripFaucet env address chain).1.message.isSome = true)) := by
  unfold dripFaucet
  cases hfind : (env.chains.find? (fun p => p.1 == chain)).map Prod.snd with
  | none => simp [faucetCatch]
  | some cfg => exact dripWithCfg_structured env address chain cfg

/-- An authorized user with a stored wallet address. -/
def walletUser : UserDoc :=
  { emptyUser with status := some "active", walletAddress := some "0xABC" }

def walletStore : Store := { codes := [], users := [("u1", walletUser)] }

/-- C10 counterexample: supplying `walletAddress = ""` (present in the
request but empty, hence JS-falsy) skips the wallet comparison entirely:
`isAuthorized` comes back true although the stored wallet "0xABC" is not
equal to the supplied "". -/
theorem check_access_empty_wallet_cex :
    (lookupUser walletStore "u1").map UserDoc.walletAddress = some (some "0xABC") ∧
    (some "0xABC" : Option String) ≠ some "" ∧
    checkAccess walletStore "u1" (some "") = ⟨200, some true, none⟩ := by
  decide

/-- C10 (amended): check-access for a userId with no stored User document
returns HTTP 200 with `isAuthorized:false`; supplying no walletAddress — or
the JS-falsy empty string — checks the stored status alone; and when a
nonempty walletAddress is supplied, `isAuthorized` is true exactly when the
stored status is "active" AND the stored walletAddress equals the supplied
one. -/
theorem check_access_spec (st : Store) (userId : String) (wa : Option String)
    (u : UserDoc) (huid : userId ≠ "") :
    (lookupUser st userId = none → checkAccess st userId wa = ⟨200, some false, none⟩) ∧
    (lookupUser st userId = some u → (wa = none ∨ wa = some "") →
      checkAccess st userId wa = ⟨200, some (u.status == some "active"), none⟩) ∧
    (∀ w, w ≠ "" → lookupUser st userId = some u → wa = some w →
      checkAccess st userId wa =
        ⟨200, some (u.status == some "active" && u.walletAddress == some w), none⟩) := by
  refine ⟨?_, ?_, ?_⟩
  · intro hnone
    unfold checkAccess
    rw [if_neg huid, hnone]
  · intro hsome hwa
    unfold checkAccess
    rw [if_neg huid]
    rcases hwa with h | h <;> subst h <;> simp [hsome, strTruthy]
  · intro w hw hsome hwa
    subst hwa
    unfold checkAccess
    rw [if_neg huid]
    have hwb : (w != "") = true := by simpa using hw
    simp [hsome, strTruthy, hwb]

/-- Witness for `check_access_spec`: "u1" with matching wallet "0xABC". -/
theorem check_access_spec_witness :
    checkAccess walletStore "u1" (some "0xABC") = ⟨200, some true, none⟩ := by
  have h := (check_access_spec walletStore "u1" (some "0xABC") walletUser
    (by decide)).2.2 "0xABC" (by decide) (by decide) rfl
  rw [h]
  decide

end Attenomics
